import Mathlib

/-!
Verification development for the whisper-indexer block-indexing pipeline.

Shallow embedding of:
  * the db module (src/unnamed/part_000): message/profile persistence and
    the sync-state checkpoint;
  * the event parser (src/parser.ts): `parseBlock`;
  * the lake module (src/unnamed/part_002 revision, the one the current
    constants and retry/adaptive-interval behaviour come from):
    `fetchBlock`, `fetchBlockWithRetry`, `getStartBlockHeight` and one
    iteration of the `startIndexing` loop.

The SQLite database is modelled as in-memory lists: `messages` in insertion
order (the AUTOINCREMENT id is the list position), `profiles` keyed by
`account_id`, and the single `sync_state` row under the fixed key
`last_block_height` as an `Option Nat` (`none` = the row is absent).
-/

/-- A row of the `messages` table, without the AUTOINCREMENT `id`
(`saveMessage` takes `Omit<DbMessage, 'id'>`). -/
structure DbMessage where
  tx_hash : String
  block_height : Nat
  timestamp_ns : String
  event_type : String
  sender : String
  recipient : String
  encrypted_body : String
  nonce : String
  recipient_key_version : Nat
  reply_to : Option String
  amount : Option String
deriving Repr, DecidableEq

/-- A row of the `profiles` table. -/
structure DbProfile where
  account_id : String
  x25519_pubkey : String
  key_version : Nat
  display_name : Option String
  registered_at : String
deriving Repr, DecidableEq

/-- The persistent store: `messages`, `profiles` and the single
`sync_state` checkpoint row. -/
structure Db where
  messages : List DbMessage
  profiles : List DbProfile
  lastBlockHeight : Option Nat
deriving Repr, DecidableEq

/-- The natural key of the `messages` table:
`UNIQUE(tx_hash, event_type, sender, recipient)`. -/
def msgKey (m : DbMessage) : String × String × String × String :=
  (m.tx_hash, m.event_type, m.sender, m.recipient)

/-- The `insertMessage` prepared statement:
`INSERT OR IGNORE INTO messages ...` — appends the row unless a row with
the same `UNIQUE(tx_hash, event_type, sender, recipient)` key exists, in
which case it is a silent no-op (SQLite's OR IGNORE never raises on a
uniqueness conflict; accordingly the model is a total function). -/
def insertMessage (db : Db) (msg : DbMessage) : Db :=
  if db.messages.any (fun m0 => decide (msgKey m0 = msgKey msg)) then db
  else { db with messages := db.messages ++ [msg] }

/-- `saveMessage(msg)` runs the `insertMessage` statement. -/
def saveMessage (db : Db) (msg : DbMessage) : Db :=
  insertMessage db msg

/-- The `upsertProfile` prepared statement:
`INSERT INTO profiles ... ON CONFLICT(account_id) DO UPDATE SET
x25519_pubkey = excluded.x25519_pubkey, key_version = excluded.key_version,
display_name = excluded.display_name` — on conflict the row's
`registered_at` is NOT in the update list, so it is retained. -/
def upsertProfile (db : Db) (p : DbProfile) : Db :=
  if db.profiles.any (fun q => decide (q.account_id = p.account_id)) then
    { db with profiles := db.profiles.map (fun q =>
        if q.account_id = p.account_id then
          { q with
              x25519_pubkey := p.x25519_pubkey
              key_version := p.key_version
              display_name := p.display_name }
        else q) }
  else { db with profiles := db.profiles ++ [p] }

/-- `saveProfile(profile)` runs the `upsertProfile` statement. -/
def saveProfile (db : Db) (p : DbProfile) : Db :=
  upsertProfile db p

/-- `getLastBlockHeight()`: reads the `sync_state` row under
`last_block_height`; `row ? parseInt(row.value, 10) : 0`. -/
def getLastBlockHeight (db : Db) : Nat :=
  match db.lastBlockHeight with
  | some v => v
  | none => 0

/-- `setLastBlockHeight(height)`: `INSERT OR REPLACE` of the single
`sync_state` row. -/
def setLastBlockHeight (db : Db) (height : Nat) : Db :=
  { db with lastBlockHeight := some height }

/-- `getProfile(accountId)`: `SELECT * FROM profiles WHERE account_id = ?`
(`account_id` is the primary key, so the first match is the row). -/
def getProfile (db : Db) (accountId : String) : Option DbProfile :=
  db.profiles.find? (fun q => decide (q.account_id = accountId))

/-! Event parser (src/parser.ts). -/

/-- One item of a `WhisperEvent`'s `data` array, with the fields the three
variant extractors (`MessageSentEvent`, `MessageSentWithPaymentEvent`,
`KeyRegisteredEvent`) read off it. The JS `??`-defaults are captured by the
`Option` types of `reply_to` and `display_name`. The JS fields `from` and
`to` are keywords here, hence `from_` and `to_`. -/
structure EventItem where
  from_ : String
  to_ : String
  encrypted_body : String
  nonce : String
  recipient_key_version : Nat
  reply_to : Option String
  amount : String
  account_id : String
  x25519_pubkey : String
  key_version : Nat
  display_name : Option String
deriving Repr, DecidableEq

/-- The NEP-297 envelope `WhisperEvent` obtained from
`JSON.parse(log.slice('EVENT_JSON:'.length))` when it succeeds. -/
structure WhisperEvent where
  standard : String
  version : String
  event : String
  data : List EventItem
deriving Repr, DecidableEq

/-- A log line, as the parser's branches see it:
`other` — the line does not start with the `EVENT_JSON:` marker;
`malformedEvent` — it starts with the marker but `JSON.parse` of the
remainder throws; `eventJson ev` — the remainder parses to envelope `ev`. -/
inductive LogLine where
  | other
  | malformedEvent
  | eventJson (ev : WhisperEvent)
deriving Repr, DecidableEq

/-- `execution_outcome.outcome` — the fields the parser reads. -/
structure OutcomeInner where
  executor_id : String
  logs : List LogLine
deriving Repr, DecidableEq

/-- `execution_outcome`. -/
structure ExecutionOutcome where
  id : String
  outcome : OutcomeInner
deriving Repr, DecidableEq

/-- A receipt-execution-outcome of a shard. -/
structure ReceiptExecutionOutcome where
  execution_outcome : ExecutionOutcome
  tx_hash : String
deriving Repr, DecidableEq

/-- A shard of a block. -/
structure Shard where
  receipt_execution_outcomes : List ReceiptExecutionOutcome
deriving Repr, DecidableEq

/-- `block.header` — the fields the parser reads. -/
structure BlockHeader where
  height : Nat
  timestamp : Nat
deriving Repr, DecidableEq

/-- The `block` wrapper of a neardata block. -/
structure BlockOuter where
  header : BlockHeader
deriving Repr, DecidableEq

/-- A neardata block as `parseBlock` consumes it. -/
structure NearBlock where
  block : BlockOuter
  shards : List Shard
deriving Repr, DecidableEq

/-- `const CONTRACT_ID = process.env.CONTRACT_ID || 'whisper.kaizap.near'`
(default value; the env override is irrelevant to the claims). -/
def CONTRACT_ID : String := "whisper.kaizap.near"

/-- `const txHash = reo.tx_hash || reo.execution_outcome.id` — the empty
string is the only falsy string. -/
def txHashOf (reo : ReceiptExecutionOutcome) : String :=
  if reo.tx_hash = "" then reo.execution_outcome.id else reo.tx_hash

/-- The `switch (event.event)` body, run for one `item` of the envelope's
`data` array. The accumulator is `(eventsFound, db)`; unrecognized tags
fall through the switch and change nothing. -/
def processItem (tag : String) (txHash : String) (blockHeight : Nat)
    (timestampNs : String) (acc : Nat × Db) (item : EventItem) : Nat × Db :=
  match tag with
  | "message_sent" =>
      (acc.1 + 1, saveMessage acc.2
        { tx_hash := txHash
          block_height := blockHeight
          timestamp_ns := timestampNs
          event_type := "message_sent"
          sender := item.from_
          recipient := item.to_
          encrypted_body := item.encrypted_body
          nonce := item.nonce
          recipient_key_version := item.recipient_key_version
          reply_to := item.reply_to
          amount := none })
  | "message_sent_with_payment" =>
      (acc.1 + 1, saveMessage acc.2
        { tx_hash := txHash
          block_height := blockHeight
          timestamp_ns := timestampNs
          event_type := "message_sent_with_payment"
          sender := item.from_
          recipient := item.to_
          encrypted_body := item.encrypted_body
          nonce := item.nonce
          recipient_key_version := item.recipient_key_version
          reply_to := item.reply_to
          amount := some item.amount })
  | "key_registered" =>
      (acc.1 + 1, saveProfile acc.2
        { account_id := item.account_id
          x25519_pubkey := item.x25519_pubkey
          key_version := item.key_version
          display_name := item.display_name
          registered_at := timestampNs })
  | _ => acc

/-- The body of `for (const log of logs)`: skip lines without the
`EVENT_JSON:` marker; the `try` around `JSON.parse` and the dispatch turns
a malformed remainder into a skip; an envelope whose `standard` is not
`whisper` is skipped; otherwise every item of `data` is dispatched. -/
def processLog (blockHeight : Nat) (timestampNs : String)
    (reo : ReceiptExecutionOutcome) (acc : Nat × Db) (log : LogLine) :
    Nat × Db :=
  match log with
  | .other => acc
  | .malformedEvent => acc
  | .eventJson ev =>
      if ev.standard ≠ "whisper" then acc
      else ev.data.foldl
        (processItem ev.event (txHashOf reo) blockHeight timestampNs) acc

/-- `parseBlock(blockData)`: traverses shards / receipt-execution-outcomes
/ logs, keeping only outcomes whose `executor_id` is the contract, and
returns the `eventsFound` count together with the updated store (the JS
function mutates the db through `saveMessage`/`saveProfile`; the model
threads it). The early `continue`s on empty outcome and log lists
coincide with folding over the empty list. -/
def parseBlock (db : Db) (blockData : NearBlock) : Nat × Db :=
  let blockHeight := blockData.block.header.height
  let timestampNs := toString blockData.block.header.timestamp
  blockData.shards.foldl (fun accS shard =>
    shard.receipt_execution_outcomes.foldl (fun accR reo =>
      if reo.execution_outcome.outcome.executor_id ≠ CONTRACT_ID then accR
      else reo.execution_outcome.outcome.logs.foldl
        (processLog blockHeight timestampNs reo) accR)
      accS)
    (0, db)

/-! Lake module (src/unnamed/part_002 revision). -/

/-- `POLL_INTERVAL_MS = 350` — steady-state cadence. -/
def POLL_INTERVAL_MS : Nat := 350

/-- `CATCHUP_INTERVAL_MS = 50` — cadence when far behind the tip. -/
def CATCHUP_INTERVAL_MS : Nat := 50

/-- `IDLE_INTERVAL_MS = 1000` — cadence at the chain tip. -/
def IDLE_INTERVAL_MS : Nat := 1000

/-- `MAX_RETRIES = 3`. -/
def MAX_RETRIES : Nat := 3

/-- `RETRY_BASE_MS = 1000`. -/
def RETRY_BASE_MS : Nat := 1000

/-- `CATCHUP_THRESHOLD = 100` — blocks behind tip to consider "catching up". -/
def CATCHUP_THRESHOLD : Nat := 100

/-- The literal `5000` of `await sleep(5000)` in the loop's catch handler. -/
def ERROR_DELAY_MS : Nat := 5000

/-- What `JSON.parse` does to the response text of `fetchBlock`:
it throws (`malformed`), yields a value with a truthy `error` field
(`errorField`), yields JSON `null` (`nullVal` — falsy, so the `error`
check is skipped and `return data` hands back null), or yields a block
object (`blockVal`). Parse-success values that are neither null nor an
object are not distinguished; no claim depends on them. -/
inductive BodyParse where
  | malformed
  | errorField
  | nullVal
  | blockVal (b : NearBlock)
deriving Repr, DecidableEq

/-- An HTTP response as `fetchBlock` inspects it: the status code, the
body text (for the `!text || text.length < 2` guard) and the outcome of
`JSON.parse` on that text. -/
structure UpstreamResponse where
  status : Nat
  text : String
  parse : BodyParse
deriving Repr, DecidableEq

/-- `fetchBlock(height)` given the upstream response: `null` ("no data")
for a non-200 status, a too-short body (`!text` is the 0-length case of
`text.length < 2`), an unparsable body, a body with a truthy `error`
field, or a JSON-null body; the parsed block otherwise. It only returns —
the "no data" classification never throws, and all its cases produce the
one value `none` that genuine block absence also produces. -/
def fetchBlock (res : UpstreamResponse) : Option NearBlock :=
  if res.status = 200 then
    if res.text.length < 2 then none
    else
      match res.parse with
      | .malformed => none
      | .errorField => none
      | .nullVal => none
      | .blockVal b => some b
  else none

/-- The observable behaviour of one `fetchBlockWithRetry` call: its
returned value (`Except.error` models the rethrow of the last attempt's
fetch error), the number of `fetchBlock` attempts performed, and the
backoff sleeps in order. -/
structure RetryTrace where
  result : Except Unit (Option NearBlock)
  attemptsMade : Nat
  sleeps : List Nat
deriving Repr

/-- The `for (let attempt = 0; attempt < MAX_RETRIES; attempt++)` loop of
`fetchBlockWithRetry`. `oracle n` is the behaviour of the n-th
`await fetchBlock(height)` call: `Except.error` when the underlying
`fetch` throws, otherwise the upstream response. `fuel` is the number of
remaining iterations (`MAX_RETRIES - attempt`); at `fuel = 0` the loop
exits and the function returns null. -/
def fetchBlockWithRetryGo (oracle : Nat → Except Unit UpstreamResponse) :
    Nat → Nat → RetryTrace
  | _, 0 => ⟨Except.ok none, 0, []⟩
  | attempt, fuel + 1 =>
    match oracle attempt with
    | Except.ok res =>
        match fetchBlock res with
        | some d => ⟨Except.ok (some d), 1, []⟩
        | none =>
            if attempt < MAX_RETRIES - 1 then
              let t := fetchBlockWithRetryGo oracle (attempt + 1) fuel
              ⟨t.result, t.attemptsMade + 1, RETRY_BASE_MS * 2 ^ attempt :: t.sleeps⟩
            else
              let t := fetchBlockWithRetryGo oracle (attempt + 1) fuel
              ⟨t.result, t.attemptsMade + 1, t.sleeps⟩
    | Except.error _ =>
        if attempt = MAX_RETRIES - 1 then ⟨Except.error (), 1, []⟩
        else
          let t := fetchBlockWithRetryGo oracle (attempt + 1) fuel
          ⟨t.result, t.attemptsMade + 1, RETRY_BASE_MS * 2 ^ attempt :: t.sleeps⟩

/-- `fetchBlockWithRetry(height)`: runs the attempt loop from attempt 0
with `MAX_RETRIES` iterations available. A non-null result returns
immediately; a null result backs off (`RETRY_BASE_MS * 2^attempt`) unless
it is the last attempt; a thrown fetch error rethrows on the last attempt
and otherwise backs off the same way; after the loop, null. -/
def fetchBlockWithRetry (oracle : Nat → Except Unit UpstreamResponse) :
    RetryTrace :=
  fetchBlockWithRetryGo oracle 0 MAX_RETRIES

/-- `getStartBlockHeight()`. `envStart` models
`parseInt(process.env.START_BLOCK, 10)` (`none` = variable unset or not a
number, in which case `envStart && parseInt(envStart) > 0` is falsy);
`latest` models the value `fetchLatestBlockHeight()` would return (that
function never throws). -/
def getStartBlockHeight (db : Db) (envStart : Option Nat) (latest : Nat) :
    Nat :=
  let saved := getLastBlockHeight db
  if saved > 0 then saved + 1
  else
    match envStart with
    | some n => if n > 0 then n else latest
    | none => latest

/-- The loop-local state of `startIndexing` together with the store. -/
structure LoopState where
  currentHeight : Nat
  latestKnownHeight : Nat
  blocksProcessed : Nat
  totalEvents : Nat
  skippedBlocks : Nat
  db : Db
deriving Repr

/-- The environment of one loop iteration:
`tipAfterRefresh` — the value the periodic `fetchLatestBlockHeight()`
returns if this iteration refreshes (the function never throws; on any
failure it returns the cached value, so any `Nat` is a faithful outcome);
`tipAtTip` — the value of the refresh inside the at-tip branch;
`fetchOracle` — per-attempt behaviour of `fetchBlock` for this height
(see `fetchBlockWithRetryGo`);
`parseThrows` — whether `parseBlock` + its saves raise at the JS level
(the typed model of `parseBlock` is total; a raise can only come from a
malformed block shape or a store failure);
`strayWrites` — the message/profile rows as left behind by a raising
parse (its saves go only through `saveMessage`/`saveProfile`, which touch
the `messages` and `profiles` tables and never the `sync_state`
checkpoint, so the checkpoint cannot be modified by a raising parse). -/
structure StepInput where
  tipAfterRefresh : Nat
  tipAtTip : Nat
  fetchOracle : Nat → Except Unit UpstreamResponse
  parseThrows : Bool
  strayWrites : List DbMessage × List DbProfile → List DbMessage × List DbProfile

/-- The cached tip after the periodic refresh at the top of an iteration:
`if (blocksProcessed % 200 === 0) latestKnownHeight = await fetchLatestBlockHeight()`. -/
def refreshedTip (s : LoopState) (env : StepInput) : Nat :=
  if s.blocksProcessed % 200 = 0 then env.tipAfterRefresh
  else s.latestKnownHeight

/-- One iteration of the `while (running)` body of `startIndexing`,
returning the successor state and the sleep the iteration performs at
loop level (`none` — the `continue` of the missing-block branch sleeps
nothing; the backoff sleeps inside `fetchBlockWithRetry` are accounted in
its `RetryTrace`). Branches, in source order: at-tip (idle sleep, tip
refresh, continue); missing block (checkpoint advance, height increment,
continue); parse + save (on a raise: the catch handler — partial
message/profile writes survive, checkpoint and height untouched, fixed
`ERROR_DELAY_MS` sleep; the same catch receives a fetch error rethrown
out of `fetchBlockWithRetry`); on success: checkpoint advance, height
increment, adaptive sleep on `latestKnownHeight - currentHeight` with the
already-incremented height, exactly as the source computes `behindBy`. -/
def loopStep (s : LoopState) (env : StepInput) : LoopState × Option Nat :=
  let tip0 := refreshedTip s env
  if tip0 < s.currentHeight then
    ({ s with latestKnownHeight := env.tipAtTip }, some IDLE_INTERVAL_MS)
  else
    match (fetchBlockWithRetry env.fetchOracle).result with
    | Except.error _ =>
        ({ s with latestKnownHeight := tip0 }, some ERROR_DELAY_MS)
    | Except.ok none =>
        ({ s with
            latestKnownHeight := tip0
            skippedBlocks := s.skippedBlocks + 1
            db := setLastBlockHeight s.db s.currentHeight
            currentHeight := s.currentHeight + 1 }, none)
    | Except.ok (some blockData) =>
        if env.parseThrows then
          let w := env.strayWrites (s.db.messages, s.db.profiles)
          ({ s with
              latestKnownHeight := tip0
              db := { s.db with messages := w.1, profiles := w.2 } },
            some ERROR_DELAY_MS)
        else
          let r := parseBlock s.db blockData
          let s' := { s with
              latestKnownHeight := tip0
              totalEvents :=
                if r.1 > 0 then s.totalEvents + r.1 else s.totalEvents
              db := setLastBlockHeight r.2 s.currentHeight
              blocksProcessed := s.blocksProcessed + 1
              currentHeight := s.currentHeight + 1 }
          let behindBy : Int := (tip0 : Int) - (s.currentHeight + 1 : Nat)
          (s', some (if behindBy > (CATCHUP_THRESHOLD : Int)
                     then CATCHUP_INTERVAL_MS else POLL_INTERVAL_MS))

/-! Input constructors used by the statements below. -/

/-- A well-formed `message_sent` event log line carrying a single data
item (the marker is present and the remainder parses). -/
def mkMsgLine (item : EventItem) : LogLine :=
  LogLine.eventJson
    { standard := "whisper", version := "1.0.0",
      event := "message_sent", data := [item] }

/-- A receipt-execution-outcome of the target contract with outcome id
`rid`, transaction hash `tx` and the given log lines. -/
def mkReo (rid tx : String) (logs : List LogLine) : ReceiptExecutionOutcome :=
  { execution_outcome := { id := rid, outcome := { executor_id := CONTRACT_ID, logs := logs } },
    tx_hash := tx }

/-- A one-shard, one-outcome block at height `h` with timestamp `t`. -/
def mkBlock (h t : Nat) (rid tx : String) (logs : List LogLine) : NearBlock :=
  { block := { header := { height := h, timestamp := t } },
    shards := [{ receipt_execution_outcomes := [mkReo rid tx logs] }] }

/-- The transaction hash `parseBlock` derives for an outcome with id `rid`
and `tx_hash` field `tx` (`reo.tx_hash || reo.execution_outcome.id`). -/
def msgTxHash (rid tx : String) : String :=
  if tx = "" then rid else tx

/-- The message row the `message_sent` branch saves for `item`, in a block
of height `h` and timestamp `t`, under an outcome with id `rid` and
tx hash `tx`. -/
def msgRowOf (rid tx : String) (h t : Nat) (item : EventItem) : DbMessage :=
  { tx_hash := msgTxHash rid tx
    block_height := h
    timestamp_ns := toString t
    event_type := "message_sent"
    sender := item.from_
    recipient := item.to_
    encrypted_body := item.encrypted_body
    nonce := item.nonce
    recipient_key_version := item.recipient_key_version
    reply_to := item.reply_to
    amount := none }

/-- A loop state 5 blocks behind a cached tip of 10 (so neither at the
tip nor past the catch-up threshold), one block already processed (so the
iteration does not refresh the tip). -/
def demoState : LoopState :=
  { currentHeight := 5, latestKnownHeight := 10, blocksProcessed := 1,
    totalEvents := 0, skippedBlocks := 0,
    db := { messages := [], profiles := [], lastBlockHeight := some 4 } }

/-- An iteration environment whose every fetch attempt yields a 404
response: `fetchBlockWithRetry` exhausts its retries and returns null. -/
def missEnv : StepInput :=
  { tipAfterRefresh := 10, tipAtTip := 10,
    fetchOracle := fun _ =>
      Except.ok { status := 404, text := "not found", parse := BodyParse.malformed },
    parseThrows := false,
    strayWrites := id }

/-- An iteration environment whose every fetch attempt throws:
`fetchBlockWithRetry` rethrows after the last attempt. -/
def errEnv : StepInput :=
  { tipAfterRefresh := 10, tipAtTip := 10,
    fetchOracle := fun _ => Except.error (),
    parseThrows := false,
    strayWrites := id }

/-- A block with no shards (nothing for the parser to find). -/
def emptyBlock : NearBlock :=
  { block := { header := { height := 6, timestamp := 60 } }, shards := [] }

/-- An iteration environment whose first fetch attempt succeeds with
`emptyBlock` and whose parse completes without raising. -/
def okEnv : StepInput :=
  { tipAfterRefresh := 10, tipAtTip := 10,
    fetchOracle := fun _ =>
      Except.ok { status := 200, text := "obj", parse := BodyParse.blockVal emptyBlock },
    parseThrows := false,
    strayWrites := id }

/-! Theorems. -/

/-- C4: for every upstream response, `fetchBlock` classifies a non-success
HTTP status, an unparsable body, and a body carrying an explicit error
field all as "no data": it returns `none` rather than throwing (the model
is a total function into `Option`), and `none` is the very value genuine
block absence produces, so the outcomes are not distinguished. -/
theorem fetchBlock_classifies_no_data (res : UpstreamResponse)
    (h : res.status ≠ 200 ∨ res.parse = BodyParse.malformed ∨
         res.parse = BodyParse.errorField) :
    fetchBlock res = none := by
  unfold fetchBlock
  rcases h with h | h | h
  · rw [if_neg h]
  · split_ifs <;> simp [h]
  · split_ifs <;> simp [h]

theorem fetchBlock_classifies_no_data_witness :
    ((429 : Nat) ≠ 200 ∨
      (UpstreamResponse.mk 429 "rate limited" BodyParse.malformed).parse = BodyParse.malformed ∨
      (UpstreamResponse.mk 429 "rate limited" BodyParse.malformed).parse = BodyParse.errorField) ∧
    fetchBlock (UpstreamResponse.mk 429 "rate limited" BodyParse.malformed) = none :=
  ⟨Or.inl (by decide),
   fetchBlock_classifies_no_data _ (Or.inl (by decide))⟩

/-- C9: on start the initial processing height is `checkpoint + 1` when a
persisted checkpoint exists (`saved > 0`), else the configured start
height when provided and positive, else the chain tip; in particular
after `setLastBlockHeight c` a restart resolves to `c + 1`. -/
theorem getStartBlockHeight_resolution (db : Db) (envStart : Option Nat)
    (latest : Nat) :
    (0 < getLastBlockHeight db →
        getStartBlockHeight db envStart latest = getLastBlockHeight db + 1) ∧
    (getLastBlockHeight db = 0 →
        ∀ k, envStart = some k → 0 < k →
          getStartBlockHeight db envStart latest = k) ∧
    (getLastBlockHeight db = 0 → (envStart = none ∨ envStart = some 0) →
        getStartBlockHeight db envStart latest = latest) ∧
    (∀ c, 0 < c →
        getStartBlockHeight (setLastBlockHeight db c) envStart latest = c + 1) := by
  refine ⟨?_, ?_, ?_, ?_⟩
  · intro h
    simp [getStartBlockHeight, h]
  · intro h k hk hkpos
    simp [getStartBlockHeight, h, hk, hkpos]
  · intro h henv
    rcases henv with henv | henv <;> simp [getStartBlockHeight, h, henv]
  · intro c hc
    simp [getStartBlockHeight, getLastBlockHeight, setLastBlockHeight, hc]

theorem getStartBlockHeight_resolution_witness :
    0 < (41 : Nat) ∧
    getStartBlockHeight
      (setLastBlockHeight (Db.mk [] [] none) 41) none 7 = 41 + 1 :=
  ⟨by decide,
   (getStartBlockHeight_resolution (Db.mk [] [] none) none 7).2.2.2 41 (by decide)⟩

/-- C10: a stored checkpoint of 0 is indistinguishable from an absent
checkpoint: `getLastBlockHeight` returns 0 for both, and
`getStartBlockHeight` (whose guard is `saved > 0`) gives the same result
on both, falling through to the configured start height when positive and
otherwise to the chain tip — never to a resumption at height 1. -/
theorem checkpoint_zero_indistinguishable (db : Db) (envStart : Option Nat)
    (latest : Nat)
    (h0 : db.lastBlockHeight = some 0 ∨ db.lastBlockHeight = none) :
    getLastBlockHeight db = 0 ∧
    getStartBlockHeight db envStart latest =
      getStartBlockHeight { db with lastBlockHeight := none } envStart latest ∧
    (∀ k, envStart = some k → 0 < k →
        getStartBlockHeight db envStart latest = k) ∧
    (envStart = none → getStartBlockHeight db envStart latest = latest) := by
  have hz : getLastBlockHeight db = 0 := by
    rcases h0 with h0 | h0 <;> simp [getLastBlockHeight, h0]
  refine ⟨hz, ?_, ?_, ?_⟩
  · have h1 : getLastBlockHeight { db with lastBlockHeight := none } = 0 := rfl
    simp [getStartBlockHeight, hz, h1]
  · intro k hk hkpos
    simp [getStartBlockHeight, hz, hk, hkpos]
  · intro henv
    simp [getStartBlockHeight, hz, henv]

theorem checkpoint_zero_indistinguishable_witness :
    ((Db.mk [] [] (some 0)).lastBlockHeight = some 0 ∨
      (Db.mk [] [] (some 0)).lastBlockHeight = none) ∧
    getLastBlockHeight (Db.mk [] [] (some 0)) = 0 ∧
    getStartBlockHeight (Db.mk [] [] (some 0)) none 123 = 123 :=
  ⟨Or.inl rfl,
   (checkpoint_zero_indistinguishable (Db.mk [] [] (some 0)) none 123
      (Or.inl rfl)).1,
   (checkpoint_zero_indistinguishable (Db.mk [] [] (some 0)) none 123
      (Or.inl rfl)).2.2.2 rfl⟩

/-- C2: starting from a store with no row under the key of `m1`, saving
`m1` and then any `m2` with the identical natural key
(tx_hash, event_type, sender, recipient) leaves the store of the first
save unchanged (the duplicate is a silent no-op — `saveMessage` is a
total function, so it raises nothing), the first save stored exactly the
row `m1`, and the rows under that key after both calls are exactly
`[m1]`: one row, with the FIRST call's payload. -/
theorem saveMessage_duplicate_first_wins (db : Db) (m1 m2 : DbMessage)
    (hkey : msgKey m1 = msgKey m2)
    (hfresh : ∀ m ∈ db.messages, msgKey m ≠ msgKey m1) :
    saveMessage (saveMessage db m1) m2 = saveMessage db m1 ∧
    (saveMessage db m1).messages = db.messages ++ [m1] ∧
    ((saveMessage (saveMessage db m1) m2).messages.filter
        (fun m => decide (msgKey m = msgKey m1))) = [m1] := by
  have hany1 :
      db.messages.any (fun m0 => decide (msgKey m0 = msgKey m1)) = false := by
    rw [List.any_eq_false]
    intro m hm
    simpa using hfresh m hm
  have hsave1 : saveMessage db m1 = { db with messages := db.messages ++ [m1] } := by
    rw [saveMessage, insertMessage, hany1]
    rfl
  have hany2 :
      (db.messages ++ [m1]).any (fun m0 => decide (msgKey m0 = msgKey m2)) = true := by
    rw [List.any_eq_true]
    exact ⟨m1, by simp, by simp [hkey]⟩
  have hsave2 : saveMessage (saveMessage db m1) m2 = saveMessage db m1 := by
    rw [saveMessage, insertMessage, hsave1]
    simp only [hany2]
    rfl
  refine ⟨hsave2, by rw [hsave1], ?_⟩
  rw [hsave2, hsave1]
  have hfilter :
      db.messages.filter (fun m => decide (msgKey m = msgKey m1)) = [] := by
    rw [List.filter_eq_nil_iff]
    intro m hm
    simpa using hfresh m hm
  simp [List.filter_append, hfilter]

theorem saveMessage_duplicate_first_wins_witness :
    msgKey (DbMessage.mk "tx1" 9 "90" "message_sent" "a.near" "b.near" "body1" "n1" 1 none none) =
      msgKey (DbMessage.mk "tx1" 7 "70" "message_sent" "a.near" "b.near" "body2" "n2" 2 none (some "1")) ∧
    ((saveMessage
        (saveMessage (Db.mk [] [] none)
          (DbMessage.mk "tx1" 9 "90" "message_sent" "a.near" "b.near" "body1" "n1" 1 none none))
        (DbMessage.mk "tx1" 7 "70" "message_sent" "a.near" "b.near" "body2" "n2" 2 none (some "1"))).messages.filter
      (fun m => decide (msgKey m =
        msgKey (DbMessage.mk "tx1" 9 "90" "message_sent" "a.near" "b.near" "body1" "n1" 1 none none)))) =
      [DbMessage.mk "tx1" 9 "90" "message_sent" "a.near" "b.near" "body1" "n1" 1 none none] :=
  ⟨by decide,
   (saveMessage_duplicate_first_wins (Db.mk [] [] none)
      (DbMessage.mk "tx1" 9 "90" "message_sent" "a.near" "b.near" "body1" "n1" 1 none none)
      (DbMessage.mk "tx1" 7 "70" "message_sent" "a.near" "b.near" "body2" "n2" 2 none (some "1"))
      (by decide) (by intro m hm; simp at hm)).2.2⟩

/-- Helper: applying the conflict-update to `l ++ [p1]` when no profile of
`l` has `p1`'s account leaves `l` unchanged and updates `p1`, and the
lookup then finds the updated `p1`. -/
theorem upsert_find_after_append (p1 p2 : DbProfile)
    (hacc : p1.account_id = p2.account_id) :
    ∀ (l : List DbProfile), (∀ q ∈ l, q.account_id ≠ p1.account_id) →
      ((l ++ [p1]).map (fun q =>
          if q.account_id = p2.account_id then
            { q with
                x25519_pubkey := p2.x25519_pubkey
                key_version := p2.key_version
                display_name := p2.display_name }
          else q)).find? (fun q => decide (q.account_id = p2.account_id)) =
        some { account_id := p1.account_id
               x25519_pubkey := p2.x25519_pubkey
               key_version := p2.key_version
               display_name := p2.display_name
               registered_at := p1.registered_at } := by
  intro l
  induction l with
  | nil =>
      intro _
      simp [hacc]
  | cons q l ih =>
      intro h
      have hq : ¬ (q.account_id = p2.account_id) := by
        rw [← hacc]
        exact h q (by simp)
      simp only [List.cons_append, List.map_cons, List.find?_cons, hq,
        if_false, decide_eq_true_eq]
      exact ih (fun r hr => h r (by simp [hr]))

/-- C8: with no profile stored for the account, `saveProfile` for `p1`
(key K1, registered at T1) followed by `saveProfile` for `p2` on the same
account yields a stored profile carrying `p2`'s public key, key version
and display name, while `registered_at` remains `p1`'s: `ON CONFLICT`
updates every column except `registered_at`. -/
theorem saveProfile_overwrites_except_registered_at (db : Db)
    (p1 p2 : DbProfile)
    (hacc : p1.account_id = p2.account_id)
    (hfresh : ∀ q ∈ db.profiles, q.account_id ≠ p1.account_id) :
    getProfile (saveProfile (saveProfile db p1) p2) p2.account_id =
      some { account_id := p1.account_id
             x25519_pubkey := p2.x25519_pubkey
             key_version := p2.key_version
             display_name := p2.display_name
             registered_at := p1.registered_at } := by
  have hany1 :
      db.profiles.any (fun q => decide (q.account_id = p1.account_id)) = false := by
    rw [List.any_eq_false]
    intro q hq
    simpa using hfresh q hq
  have hsave1 : saveProfile db p1 = { db with profiles := db.profiles ++ [p1] } := by
    rw [saveProfile, upsertProfile, hany1]
    rfl
  have hany2 :
      (db.profiles ++ [p1]).any (fun q => decide (q.account_id = p2.account_id)) = true := by
    rw [List.any_eq_true]
    exact ⟨p1, by simp, by simp [hacc]⟩
  rw [hsave1, saveProfile, upsertProfile]
  simp only [hany2, if_true]
  rw [getProfile]
  exact upsert_find_after_append p1 p2 hacc db.profiles hfresh

theorem saveProfile_overwrites_except_registered_at_witness :
    (DbProfile.mk "alice.near" "K1" 1 none "T1").account_id =
      (DbProfile.mk "alice.near" "K2" 2 (some "Alice") "T2").account_id ∧
    getProfile
      (saveProfile
        (saveProfile (Db.mk [] [] none) (DbProfile.mk "alice.near" "K1" 1 none "T1"))
        (DbProfile.mk "alice.near" "K2" 2 (some "Alice") "T2"))
      "alice.near" =
      some (DbProfile.mk "alice.near" "K2" 2 (some "Alice") "T1") :=
  ⟨by decide,
   saveProfile_overwrites_except_registered_at (Db.mk [] [] none)
     (DbProfile.mk "alice.near" "K1" 1 none "T1")
     (DbProfile.mk "alice.near" "K2" 2 (some "Alice") "T2")
     (by decide) (by intro q hq; simp at hq)⟩

/-- Helper: the attempt loop makes at most `fuel` attempts. -/
theorem retryGo_attempts_le (oracle : Nat → Except Unit UpstreamResponse) :
    ∀ (fuel attempt : Nat),
      (fetchBlockWithRetryGo oracle attempt fuel).attemptsMade ≤ fuel := by
  intro fuel
  induction fuel with
  | zero => intro attempt; simp [fetchBlockWithRetryGo]
  | succ fuel ih =>
      intro attempt
      rcases h0 : oracle attempt with u | r
      · simp only [fetchBlockWithRetryGo, h0]
        split
        · simp
        · simpa using Nat.succ_le_succ (ih (attempt + 1))
      · rcases hf : fetchBlock r with _ | d
        · simp only [fetchBlockWithRetryGo, h0, hf]
          split
          · simpa using Nat.succ_le_succ (ih (attempt + 1))
          · simpa using Nat.succ_le_succ (ih (attempt + 1))
        · simp [fetchBlockWithRetryGo, h0, hf]

/-- Helper: with fuel left, the loop makes at least one attempt. -/
theorem retryGo_attempts_pos (oracle : Nat → Except Unit UpstreamResponse) :
    ∀ (fuel attempt : Nat), 0 < fuel →
      1 ≤ (fetchBlockWithRetryGo oracle attempt fuel).attemptsMade := by
  intro fuel attempt hpos
  match fuel, hpos with
  | fuel + 1, _ =>
    rcases h0 : oracle attempt with u | r
    · simp only [fetchBlockWithRetryGo, h0]
      split
      · simp
      · simp
    · rcases hf : fetchBlock r with _ | d
      · simp only [fetchBlockWithRetryGo, h0, hf]
        split
        · simp
        · simp
      · simp [fetchBlockWithRetryGo, h0, hf]

/-- Helper: the backoff sleeps recorded by the attempt loop started at
`attempt` with the matching fuel are exactly
`RETRY_BASE_MS * 2 ^ (attempt + i)` for `i` below `attemptsMade - 1`. -/
theorem retryGo_sleeps (oracle : Nat → Except Unit UpstreamResponse) :
    ∀ (fuel attempt : Nat), attempt + fuel = MAX_RETRIES →
      (fetchBlockWithRetryGo oracle attempt fuel).sleeps =
        (List.range ((fetchBlockWithRetryGo oracle attempt fuel).attemptsMade - 1)).map
          (fun i => RETRY_BASE_MS * 2 ^ (attempt + i)) := by
  intro fuel
  induction fuel with
  | zero => intro attempt _; simp [fetchBlockWithRetryGo]
  | succ fuel ih =>
      intro attempt hinv
      rcases h0 : oracle attempt with u | r
      · simp only [fetchBlockWithRetryGo, h0]
        split
        · simp
        · rename_i hne
          have hfuel : 0 < fuel := by
            simp only [MAX_RETRIES] at hinv hne
            omega
          have hpos := retryGo_attempts_pos oracle fuel (attempt + 1) hfuel
          have hs := ih (attempt + 1) (by omega)
          obtain ⟨k, hk⟩ : ∃ k,
              (fetchBlockWithRetryGo oracle (attempt + 1) fuel).attemptsMade = k + 1 :=
            ⟨_, (Nat.succ_pred_eq_of_pos hpos).symm⟩
          simp only [hs, hk, Nat.add_sub_cancel, List.range_succ_eq_map,
            List.map_cons, List.map_map, Nat.add_zero]
          congr 1
          apply List.map_congr_left
          intro i _
          simp only [Function.comp]
          exact congrArg (fun e => RETRY_BASE_MS * 2 ^ e) (by omega)
      · rcases hf : fetchBlock r with _ | d
        · simp only [fetchBlockWithRetryGo, h0, hf]
          split
          · rename_i hlt
            have hfuel : 0 < fuel := by
              simp only [MAX_RETRIES] at hinv hlt
              omega
            have hpos := retryGo_attempts_pos oracle fuel (attempt + 1) hfuel
            have hs := ih (attempt + 1) (by omega)
            obtain ⟨k, hk⟩ : ∃ k,
                (fetchBlockWithRetryGo oracle (attempt + 1) fuel).attemptsMade = k + 1 :=
              ⟨_, (Nat.succ_pred_eq_of_pos hpos).symm⟩
            simp only [hs, hk, Nat.add_sub_cancel, List.range_succ_eq_map,
              List.map_cons, List.map_map, Nat.add_zero]
            congr 1
            apply List.map_congr_left
            intro i _
            simp only [Function.comp]
            exact congrArg (fun e => RETRY_BASE_MS * 2 ^ e) (by omega)
          · rename_i hge
            have hfuel : fuel = 0 := by
              simp only [MAX_RETRIES] at hinv hge
              omega
            subst hfuel
            simp [fetchBlockWithRetryGo]
        · simp [fetchBlockWithRetryGo, h0, hf]

/-- Helper: an attempt is followed by another one only when it produced
"no data" or a thrown fetch error. -/
theorem retryGo_next_cause (oracle : Nat → Except Unit UpstreamResponse) :
    ∀ (fuel attempt i : Nat),
      i + 1 < (fetchBlockWithRetryGo oracle attempt fuel).attemptsMade →
      oracle (attempt + i) = Except.error () ∨
        ∃ r, oracle (attempt + i) = Except.ok r ∧ fetchBlock r = none := by
  intro fuel
  induction fuel with
  | zero =>
      intro attempt i hi
      simp [fetchBlockWithRetryGo] at hi
  | succ fuel ih =>
      intro attempt i hi
      rcases h0 : oracle attempt with u | r
      · simp only [fetchBlockWithRetryGo, h0] at hi
        rcases hsplit : decide (attempt = MAX_RETRIES - 1) with _ | _
        · rw [if_neg (of_decide_eq_false hsplit)] at hi
          match i with
          | 0 => exact Or.inl (by simpa using h0)
          | j + 1 =>
              have := ih (attempt + 1) j (by simpa using Nat.lt_of_succ_lt_succ hi)
              simpa [Nat.add_assoc, Nat.add_comm 1 j] using this
        · rw [if_pos (of_decide_eq_true hsplit)] at hi
          simp at hi
      · rcases hf : fetchBlock r with _ | d
        · simp only [fetchBlockWithRetryGo, h0, hf] at hi
          have hstep : ∀ j, j + 1 <
              (fetchBlockWithRetryGo oracle (attempt + 1) fuel).attemptsMade + 1 →
              oracle (attempt + j) = Except.error () ∨
                ∃ r0, oracle (attempt + j) = Except.ok r0 ∧ fetchBlock r0 = none := by
            intro j hj
            match j with
            | 0 => exact Or.inr ⟨r, by simpa using h0, hf⟩
            | k + 1 =>
                have := ih (attempt + 1) k (by omega)
                simpa [Nat.add_assoc, Nat.add_comm 1 k] using this
          rcases hsplit : decide (attempt < MAX_RETRIES - 1) with _ | _
          · rw [if_neg (of_decide_eq_false hsplit)] at hi
            exact hstep i hi
          · rw [if_pos (of_decide_eq_true hsplit)] at hi
            exact hstep i hi
        · simp only [fetchBlockWithRetryGo, h0, hf] at hi
          omega

/-- Helper: a null overall result means all available attempts were used
and the final attempt returned "no data" (or there was no fuel at all). -/
theorem retryGo_ok_none (oracle : Nat → Except Unit UpstreamResponse) :
    ∀ (fuel attempt : Nat), attempt + fuel = MAX_RETRIES →
      (fetchBlockWithRetryGo oracle attempt fuel).result = Except.ok none →
      (fetchBlockWithRetryGo oracle attempt fuel).attemptsMade = fuel ∧
      (fuel = 0 ∨
        ∃ r, oracle (MAX_RETRIES - 1) = Except.ok r ∧ fetchBlock r = none) := by
  intro fuel
  induction fuel with
  | zero =>
      intro attempt _ _
      exact ⟨rfl, Or.inl rfl⟩
  | succ fuel ih =>
      intro attempt hinv hres
      rcases h0 : oracle attempt with u | r
      · simp only [fetchBlockWithRetryGo, h0] at hres ⊢
        rcases hsplit : decide (attempt = MAX_RETRIES - 1) with _ | _
        · rw [if_neg (of_decide_eq_false hsplit)] at hres ⊢
          have hfuel : 0 < fuel := by
            have := of_decide_eq_false hsplit
            simp only [MAX_RETRIES] at hinv this ⊢
            omega
          have := ih (attempt + 1) (by omega) hres
          exact ⟨by simpa using this.1, Or.inr (by
            rcases this.2 with h | h
            · omega
            · exact h)⟩
        · rw [if_pos (of_decide_eq_true hsplit)] at hres
          simp at hres
      · rcases hf : fetchBlock r with _ | d
        · simp only [fetchBlockWithRetryGo, h0, hf] at hres ⊢
          rcases hsplit : decide (attempt < MAX_RETRIES - 1) with _ | _
          · rw [if_neg (of_decide_eq_false hsplit)] at hres ⊢
            have hattempt : attempt = MAX_RETRIES - 1 := by
              have := of_decide_eq_false hsplit
              simp only [MAX_RETRIES] at hinv this ⊢
              omega
            have hfuel : fuel = 0 := by
              simp only [MAX_RETRIES] at hinv hattempt
              omega
            subst hfuel
            refine ⟨by simp [fetchBlockWithRetryGo], Or.inr ⟨r, ?_, hf⟩⟩
            rw [← hattempt]
            exact h0
          · rw [if_pos (of_decide_eq_true hsplit)] at hres ⊢
            have hfuel : 0 < fuel := by
              have := of_decide_eq_true hsplit
              simp only [MAX_RETRIES] at hinv this ⊢
              omega
            have := ih (attempt + 1) (by omega) hres
            exact ⟨by simpa using this.1, Or.inr (by
              rcases this.2 with h | h
              · omega
              · exact h)⟩
        · simp only [fetchBlockWithRetryGo, h0, hf] at hres
          simp at hres

/-- Helper: a data result is exactly the final attempt's parsed block. -/
theorem retryGo_ok_some (oracle : Nat → Except Unit UpstreamResponse) :
    ∀ (fuel attempt : Nat) (b : NearBlock),
      (fetchBlockWithRetryGo oracle attempt fuel).result = Except.ok (some b) →
      ∃ r, oracle (attempt + ((fetchBlockWithRetryGo oracle attempt fuel).attemptsMade - 1)) =
              Except.ok r ∧
            fetchBlock r = some b := by
  intro fuel
  induction fuel with
  | zero =>
      intro attempt b hres
      simp [fetchBlockWithRetryGo] at hres
  | succ fuel ih =>
      intro attempt b hres
      rcases h0 : oracle attempt with u | r
      · simp only [fetchBlockWithRetryGo, h0] at hres ⊢
        rcases hsplit : decide (attempt = MAX_RETRIES - 1) with _ | _
        · rw [if_neg (of_decide_eq_false hsplit)] at hres ⊢
          have hpos :
              1 ≤ (fetchBlockWithRetryGo oracle (attempt + 1) fuel).attemptsMade := by
            rcases Nat.eq_zero_or_pos fuel with hz | hp
            · subst hz
              simp [fetchBlockWithRetryGo] at hres
            · exact retryGo_attempts_pos oracle fuel (attempt + 1) hp
          obtain ⟨r, hr, hfb⟩ := ih (attempt + 1) b hres
          have harith : attempt +
              ((fetchBlockWithRetryGo oracle (attempt + 1) fuel).attemptsMade + 1 - 1) =
              attempt + 1 +
                ((fetchBlockWithRetryGo oracle (attempt + 1) fuel).attemptsMade - 1) := by
            omega
          refine ⟨r, ?_, hfb⟩
          show oracle (attempt +
              ((fetchBlockWithRetryGo oracle (attempt + 1) fuel).attemptsMade + 1 - 1)) =
            Except.ok r
          rw [harith]
          exact hr
        · rw [if_pos (of_decide_eq_true hsplit)] at hres
          simp at hres
      · rcases hf : fetchBlock r with _ | d
        · simp only [fetchBlockWithRetryGo, h0, hf] at hres ⊢
          have hstep :
              (fetchBlockWithRetryGo oracle (attempt + 1) fuel).result =
                  Except.ok (some b) →
              ∃ r0, oracle (attempt +
                  ((fetchBlockWithRetryGo oracle (attempt + 1) fuel).attemptsMade + 1 - 1)) =
                    Except.ok r0 ∧
                  fetchBlock r0 = some b := by
            intro hres0
            have hpos :
                1 ≤ (fetchBlockWithRetryGo oracle (attempt + 1) fuel).attemptsMade := by
              rcases Nat.eq_zero_or_pos fuel with hz | hp
              · subst hz
                simp [fetchBlockWithRetryGo] at hres0
              · exact retryGo_attempts_pos oracle fuel (attempt + 1) hp
            obtain ⟨r0, hr0, hfb0⟩ := ih (attempt + 1) b hres0
            have harith : attempt +
                ((fetchBlockWithRetryGo oracle (attempt + 1) fuel).attemptsMade + 1 - 1) =
                attempt + 1 +
                  ((fetchBlockWithRetryGo oracle (attempt + 1) fuel).attemptsMade - 1) := by
              omega
            rw [harith]
            exact ⟨r0, hr0, hfb0⟩
          rcases hsplit : decide (attempt < MAX_RETRIES - 1) with _ | _
          · rw [if_neg (of_decide_eq_false hsplit)] at hres ⊢
            exact hstep hres
          · rw [if_pos (of_decide_eq_true hsplit)] at hres ⊢
            exact hstep hres
        · simp only [fetchBlockWithRetryGo, h0, hf] at hres ⊢
          have : d = b := by simpa using hres
          subst this
          exact ⟨r, by simpa using h0, hf⟩

/-- C3: per call, `fetchBlockWithRetry` makes at least one and at most
`MAX_RETRIES` attempts; the backoff sleeps are exactly
`RETRY_BASE_MS * 2 ^ i` after attempt `i`, one per non-final attempt; an
attempt is followed by another only when it produced "no data" or a
thrown fetch error (both trigger the backoff); and the caller receives
the last attempt's outcome — the parsed block of the final attempt, or
null when the final attempt had no data. -/
theorem fetchBlockWithRetry_bound_and_backoff
    (oracle : Nat → Except Unit UpstreamResponse) :
    1 ≤ (fetchBlockWithRetry oracle).attemptsMade ∧
    (fetchBlockWithRetry oracle).attemptsMade ≤ MAX_RETRIES ∧
    (fetchBlockWithRetry oracle).sleeps =
      (List.range ((fetchBlockWithRetry oracle).attemptsMade - 1)).map
        (fun i => RETRY_BASE_MS * 2 ^ i) ∧
    (∀ i, i + 1 < (fetchBlockWithRetry oracle).attemptsMade →
        oracle i = Except.error () ∨
          ∃ r, oracle i = Except.ok r ∧ fetchBlock r = none) ∧
    ((fetchBlockWithRetry oracle).result = Except.ok none →
        (fetchBlockWithRetry oracle).attemptsMade = MAX_RETRIES ∧
        ∃ r, oracle (MAX_RETRIES - 1) = Except.ok r ∧ fetchBlock r = none) ∧
    (∀ b, (fetchBlockWithRetry oracle).result = Except.ok (some b) →
        ∃ r, oracle ((fetchBlockWithRetry oracle).attemptsMade - 1) = Except.ok r ∧
          fetchBlock r = some b) := by
  refine ⟨?_, ?_, ?_, ?_, ?_, ?_⟩
  · exact retryGo_attempts_pos oracle MAX_RETRIES 0 (by simp [MAX_RETRIES])
  · exact retryGo_attempts_le oracle MAX_RETRIES 0
  · have := retryGo_sleeps oracle MAX_RETRIES 0 (by simp)
    simpa using this
  · intro i hi
    have := retryGo_next_cause oracle MAX_RETRIES 0 i hi
    simpa using this
  · intro hres
    have := retryGo_ok_none oracle MAX_RETRIES 0 (by simp) hres
    refine ⟨this.1, ?_⟩
    rcases this.2 with h | h
    · simp [MAX_RETRIES] at h
    · exact h
  · intro b hres
    have := retryGo_ok_some oracle MAX_RETRIES 0 b hres
    simpa using this

theorem fetchBlockWithRetry_bound_and_backoff_witness :
    1 ≤ (fetchBlockWithRetry (fun _ => Except.error ())).attemptsMade ∧
    (fetchBlockWithRetry (fun _ => Except.error ())).attemptsMade ≤ MAX_RETRIES ∧
    (fetchBlockWithRetry (fun _ => Except.error ())).sleeps =
      (List.range ((fetchBlockWithRetry (fun _ => Except.error ())).attemptsMade - 1)).map
        (fun i => RETRY_BASE_MS * 2 ^ i) :=
  ⟨(fetchBlockWithRetry_bound_and_backoff (fun _ => Except.error ())).1,
   (fetchBlockWithRetry_bound_and_backoff (fun _ => Except.error ())).2.1,
   (fetchBlockWithRetry_bound_and_backoff (fun _ => Except.error ())).2.2.1⟩

/-- C1: when the iteration is not at the tip and an error surfaces out of
the fetch+parse+save step — a fetch error propagated out of
`fetchBlockWithRetry` after exhausted retries, or a raise from
parse+save — the catch handler sleeps the fixed `ERROR_DELAY_MS` and the
iteration neither increments `currentHeight` nor advances the persisted
checkpoint: the next iteration retries the SAME height. -/
theorem loop_error_retries_same_height (s : LoopState) (env : StepInput)
    (hnt : s.currentHeight ≤ refreshedTip s env)
    (herr : (fetchBlockWithRetry env.fetchOracle).result = Except.error () ∨
            ((∃ b, (fetchBlockWithRetry env.fetchOracle).result =
                Except.ok (some b)) ∧ env.parseThrows = true)) :
    (loopStep s env).1.currentHeight = s.currentHeight ∧
    (loopStep s env).1.db.lastBlockHeight = s.db.lastBlockHeight ∧
    (loopStep s env).2 = some ERROR_DELAY_MS := by
  have hlt : ¬ refreshedTip s env < s.currentHeight := by omega
  rcases herr with herr | ⟨⟨b, hb⟩, hthrow⟩
  · simp [loopStep, hlt, herr]
  · simp [loopStep, hlt, hb, hthrow]

theorem loop_error_retries_same_height_witness :
    demoState.currentHeight ≤ refreshedTip demoState errEnv ∧
    (loopStep demoState errEnv).1.currentHeight = demoState.currentHeight ∧
    (loopStep demoState errEnv).1.db.lastBlockHeight =
      demoState.db.lastBlockHeight ∧
    (loopStep demoState errEnv).2 = some ERROR_DELAY_MS :=
  ⟨by decide,
   loop_error_retries_same_height demoState errEnv (by decide) (Or.inl rfl)⟩

/-- C6: when the iteration is not at the tip and `fetchBlockWithRetry`
returns null (no data after exhausting retries), the loop advances the
checkpoint to `currentHeight`, increments the height and counts a skip;
it performs no loop-level sleep (`continue`) and, the step being a total
function whose missing-block branch is this one, raises nothing. -/
theorem loop_missing_block_skips (s : LoopState) (env : StepInput)
    (hnt : s.currentHeight ≤ refreshedTip s env)
    (hmiss : (fetchBlockWithRetry env.fetchOracle).result = Except.ok none) :
    (loopStep s env).1.currentHeight = s.currentHeight + 1 ∧
    (loopStep s env).1.db.lastBlockHeight = some s.currentHeight ∧
    (loopStep s env).1.skippedBlocks = s.skippedBlocks + 1 ∧
    (loopStep s env).2 = none := by
  have hlt : ¬ refreshedTip s env < s.currentHeight := by omega
  simp [loopStep, hlt, hmiss, setLastBlockHeight]

theorem loop_missing_block_skips_witness :
    demoState.currentHeight ≤ refreshedTip demoState missEnv ∧
    (loopStep demoState missEnv).1.currentHeight = demoState.currentHeight + 1 ∧
    (loopStep demoState missEnv).1.db.lastBlockHeight =
      some demoState.currentHeight ∧
    (loopStep demoState missEnv).1.skippedBlocks = demoState.skippedBlocks + 1 ∧
    (loopStep demoState missEnv).2 = none :=
  ⟨by decide,
   loop_missing_block_skips demoState missEnv (by decide) rfl⟩

/-- C5 counterexample: an iteration that is neither at the tip nor past
the catch-up threshold — where the claim "on every loop iteration the
computed sleep is the steady-state poll interval otherwise" demands
`some POLL_INTERVAL_MS` — but whose block is missing: the missing-block
branch `continue`s with NO sleep at all. -/
theorem loop_sleep_not_every_iteration :
    demoState.currentHeight ≤ refreshedTip demoState missEnv ∧
    (refreshedTip demoState missEnv : Int) - (demoState.currentHeight : Int) ≤
      (CATCHUP_THRESHOLD : Int) ∧
    (loopStep demoState missEnv).2 = none ∧
    (loopStep demoState missEnv).2 ≠ some POLL_INTERVAL_MS := by
  refine ⟨by decide, by decide, rfl, by decide⟩

/-- C5 amended: the adaptive-interval rule holds on the iterations that
reach a sleep computation — the idle interval at or beyond the tip, and,
on an iteration that fetches and parses a block without error, the
catch-up interval exactly when `latestKnownHeight - currentHeight`
(with the already-incremented height, as the source computes `behindBy`)
exceeds the threshold and the steady-state poll interval otherwise;
missing-block iterations sleep nothing and error iterations sleep the
fixed error delay instead. -/
theorem loop_sleep_characterization (s : LoopState) (env : StepInput) :
    (refreshedTip s env < s.currentHeight →
        (loopStep s env).2 = some IDLE_INTERVAL_MS) ∧
    (s.currentHeight ≤ refreshedTip s env →
        (fetchBlockWithRetry env.fetchOracle).result = Except.ok none →
        (loopStep s env).2 = none) ∧
    (s.currentHeight ≤ refreshedTip s env →
        (fetchBlockWithRetry env.fetchOracle).result = Except.error () →
        (loopStep s env).2 = some ERROR_DELAY_MS) ∧
    (∀ b, s.currentHeight ≤ refreshedTip s env →
        (fetchBlockWithRetry env.fetchOracle).result = Except.ok (some b) →
        env.parseThrows = false →
        (loopStep s env).2 =
          some (if (refreshedTip s env : Int) - ((s.currentHeight + 1 : Nat) : Int) >
                  (CATCHUP_THRESHOLD : Int)
                then CATCHUP_INTERVAL_MS else POLL_INTERVAL_MS)) := by
  refine ⟨?_, ?_, ?_, ?_⟩
  · intro htip
    simp [loopStep, htip]
  · intro hnt hmiss
    have hlt : ¬ refreshedTip s env < s.currentHeight := by omega
    simp [loopStep, hlt, hmiss]
  · intro hnt herr
    have hlt : ¬ refreshedTip s env < s.currentHeight := by omega
    simp [loopStep, hlt, herr]
  · intro b hnt hok hnothrow
    have hlt : ¬ refreshedTip s env < s.currentHeight := by omega
    simp [loopStep, hlt, hok, hnothrow]

theorem loop_sleep_characterization_witness :
    demoState.currentHeight ≤ refreshedTip demoState okEnv ∧
    (loopStep demoState okEnv).2 =
      some (if (refreshedTip demoState okEnv : Int) -
                ((demoState.currentHeight + 1 : Nat) : Int) >
              (CATCHUP_THRESHOLD : Int)
            then CATCHUP_INTERVAL_MS else POLL_INTERVAL_MS) :=
  ⟨by decide,
   (loop_sleep_characterization demoState okEnv).2.2.2 emptyBlock
     (by decide) rfl rfl⟩

/-- Helper: a malformed event line leaves the accumulator untouched (the
catch around `JSON.parse` skips the line). -/
theorem processLog_malformed (bh : Nat) (ts : String)
    (reo : ReceiptExecutionOutcome) (acc : Nat × Db) :
    processLog bh ts reo acc LogLine.malformedEvent = acc := rfl

/-- Helper: `processLog` only reads the outcome's `tx_hash` and id, so
the log list carried inside the outcome is irrelevant. -/
theorem processLog_logs_irrel (bh : Nat) (ts : String) (rid tx : String)
    (L1 L2 : List LogLine) :
    processLog bh ts (mkReo rid tx L1) = processLog bh ts (mkReo rid tx L2) := by
  funext acc log
  cases log <;> rfl

/-- Helper: a single-item `message_sent` line bumps the count by one and
saves its row. -/
theorem processLog_mkMsgLine (h t : Nat) (rid tx : String)
    (logs0 : List LogLine) (acc : Nat × Db) (item : EventItem) :
    processLog h (toString t) (mkReo rid tx logs0) acc (mkMsgLine item) =
      (acc.1 + 1, saveMessage acc.2 (msgRowOf rid tx h t item)) := rfl

/-- Helper: `parseBlock` on a one-shard, one-outcome block of the target
contract is the log fold. -/
theorem parseBlock_mkBlock (db : Db) (h t : Nat) (rid tx : String)
    (logs : List LogLine) :
    parseBlock db (mkBlock h t rid tx logs) =
      logs.foldl (processLog h (toString t) (mkReo rid tx logs)) (0, db) := rfl

/-- Helper: folding well-formed single-event `message_sent` lines whose
rows are fresh for the store and pairwise distinct on the dedup key adds
one count and appends one row per line. -/
theorem foldl_msgLines_fresh (h t : Nat) (rid tx : String)
    (logs0 : List LogLine) :
    ∀ (items : List EventItem) (n : Nat) (d : Db),
      (∀ i ∈ items, ∀ m ∈ d.messages,
          msgKey m ≠ msgKey (msgRowOf rid tx h t i)) →
      ((items.map (fun i => msgKey (msgRowOf rid tx h t i))).Nodup) →
      (items.map mkMsgLine).foldl
          (processLog h (toString t) (mkReo rid tx logs0)) (n, d) =
        (n + items.length,
         { d with messages := d.messages ++ items.map (msgRowOf rid tx h t) }) := by
  intro items
  induction items with
  | nil =>
      intro n d _ _
      simp
  | cons i rest ih =>
      intro n d hfresh hnodup
      rw [List.map_cons, List.foldl_cons, processLog_mkMsgLine]
      have hany : d.messages.any
          (fun m0 => decide (msgKey m0 = msgKey (msgRowOf rid tx h t i))) = false := by
        rw [List.any_eq_false]
        intro m hm
        simpa using hfresh i (by simp) m hm
      have hsave : saveMessage d (msgRowOf rid tx h t i) =
          { d with messages := d.messages ++ [msgRowOf rid tx h t i] } := by
        rw [saveMessage, insertMessage, hany]
        rfl
      have hnodup2 :
          ((msgKey (msgRowOf rid tx h t i)) ::
            rest.map (fun i => msgKey (msgRowOf rid tx h t i))).Nodup := by
        rw [List.map_cons] at hnodup
        exact hnodup
      have hnodup' := List.nodup_cons.mp hnodup2
      rw [hsave, ih (n + 1) _ ?_ hnodup'.2]
      · simp [List.append_assoc]
        omega
      · intro j hj m hm
        rcases List.mem_append.mp hm with hm | hm
        · exact hfresh j (by simp [hj]) m hm
        · have hmeq : m = msgRowOf rid tx h t i := by simpa using hm
          subst hmeq
          intro hkeq
          exact hnodup'.1 (by rw [hkeq]; exact List.mem_map_of_mem _ hj)

/-- C7: in a block whose target-contract outcome carries `N` event log
lines — the well-formed ones each a single-item `message_sent` whisper
event with pairwise-distinct dedup keys fresh for the store — of which
exactly one is malformed JSON after the marker, `parseBlock` equals
`parseBlock` on the same block with the malformed line removed (so the
malformed line produces no stored row and aborts no sibling line and no
part of the rest of the block), returns `N − 1`, and stores exactly the
`N − 1` rows of the well-formed lines; the model is a total function, so
nothing is thrown out of the parser. -/
theorem parseBlock_malformed_line_isolation (db : Db) (h t : Nat)
    (rid tx : String) (items1 items2 : List EventItem)
    (hnodup :
      (((items1 ++ items2).map (fun i => msgKey (msgRowOf rid tx h t i))).Nodup))
    (hfresh : ∀ i ∈ items1 ++ items2, ∀ m ∈ db.messages,
        msgKey m ≠ msgKey (msgRowOf rid tx h t i)) :
    parseBlock db (mkBlock h t rid tx
        (items1.map mkMsgLine ++ LogLine.malformedEvent :: items2.map mkMsgLine)) =
      parseBlock db (mkBlock h t rid tx ((items1 ++ items2).map mkMsgLine)) ∧
    (parseBlock db (mkBlock h t rid tx
        (items1.map mkMsgLine ++ LogLine.malformedEvent :: items2.map mkMsgLine))).1 =
      items1.length + items2.length ∧
    (parseBlock db (mkBlock h t rid tx
        (items1.map mkMsgLine ++ LogLine.malformedEvent :: items2.map mkMsgLine))).2.messages =
      db.messages ++ (items1 ++ items2).map (msgRowOf rid tx h t) := by
  have hiso : parseBlock db (mkBlock h t rid tx
      (items1.map mkMsgLine ++ LogLine.malformedEvent :: items2.map mkMsgLine)) =
      parseBlock db (mkBlock h t rid tx ((items1 ++ items2).map mkMsgLine)) := by
    rw [parseBlock_mkBlock, parseBlock_mkBlock]
    rw [processLog_logs_irrel h (toString t) rid tx
        (items1.map mkMsgLine ++ LogLine.malformedEvent :: items2.map mkMsgLine)
        ((items1 ++ items2).map mkMsgLine)]
    rw [List.foldl_append, List.foldl_cons, processLog_malformed,
        List.map_append, List.foldl_append]
  have hval : parseBlock db (mkBlock h t rid tx ((items1 ++ items2).map mkMsgLine)) =
      (0 + (items1 ++ items2).length,
       { db with messages :=
          db.messages ++ (items1 ++ items2).map (msgRowOf rid tx h t) }) := by
    rw [parseBlock_mkBlock]
    exact foldl_msgLines_fresh h t rid tx ((items1 ++ items2).map mkMsgLine)
      (items1 ++ items2) 0 db hfresh hnodup
  refine ⟨hiso, ?_, ?_⟩
  · rw [hiso, hval]
    simp
  · rw [hiso, hval]

theorem parseBlock_malformed_line_isolation_witness :
    (parseBlock (Db.mk [] [] none)
        (mkBlock 100 1000 "rcpt" "tx9"
          ([EventItem.mk "a.near" "b.near" "c1" "n1" 1 none "" "" "" 0 none].map mkMsgLine ++
            LogLine.malformedEvent ::
            [EventItem.mk "c.near" "d.near" "c2" "n2" 1 none "" "" "" 0 none].map mkMsgLine))).1 =
      1 + 1 ∧
    (parseBlock (Db.mk [] [] none)
        (mkBlock 100 1000 "rcpt" "tx9"
          ([EventItem.mk "a.near" "b.near" "c1" "n1" 1 none "" "" "" 0 none].map mkMsgLine ++
            LogLine.malformedEvent ::
            [EventItem.mk "c.near" "d.near" "c2" "n2" 1 none "" "" "" 0 none].map mkMsgLine))).2.messages =
      (Db.mk [] [] none).messages ++
        ([EventItem.mk "a.near" "b.near" "c1" "n1" 1 none "" "" "" 0 none] ++
          [EventItem.mk "c.near" "d.near" "c2" "n2" 1 none "" "" "" 0 none]).map
          (msgRowOf "rcpt" "tx9" 100 1000) :=
  ⟨(parseBlock_malformed_line_isolation (Db.mk [] [] none) 100 1000 "rcpt" "tx9"
      [EventItem.mk "a.near" "b.near" "c1" "n1" 1 none "" "" "" 0 none]
      [EventItem.mk "c.near" "d.near" "c2" "n2" 1 none "" "" "" 0 none]
      (by decide) (by decide)).2.1,
   (parseBlock_malformed_line_isolation (Db.mk [] [] none) 100 1000 "rcpt" "tx9"
      [EventItem.mk "a.near" "b.near" "c1" "n1" 1 none "" "" "" 0 none]
      [EventItem.mk "c.near" "d.near" "c2" "n2" 1 none "" "" "" 0 none]
      (by decide) (by decide)).2.2⟩
